import Mathlib

/-!
Verification of the `atomic-try-update` library against its specification.

The Rust sources are shallowly embedded as Lean definitions:

* `atomic_try_update` (src/lib.rs): the CAS-loop transaction engine.  In a
  sequential (single-thread) semantics the compare-and-swap always succeeds on
  the first iteration, so the loop reduces to: run the transformation on a
  scratch copy of the cell, commit the scratch iff the transformation's first
  component is `true`.  The mutable-reference lambda `F: Fn(&mut T) -> (bool, R)`
  becomes a function `T → T × Bool × R` returning the mutated scratch value.
* `Node` chains (`*mut Node<T>` linked lists) become `List` values, head first.
* machine integers (`u64`, `u128`, `usize`) become `Nat` with explicit `% 2^w`
  (or masking) exactly where the Rust code truncates; Rust release-mode
  wrap-around arithmetic is written out as `% 2^64`.
* allocation (`Box::into_raw`) becomes an explicit address parameter where the
  address matters (the once-cell), and disappears where the chain is already
  modelled as a list (stack / queue).
-/

/-- src/lib.rs `atomic_try_update`, sequential semantics.  The cell's current
value is `cell`; the transformation `func` receives a scratch copy, and returns
the mutated scratch, whether to commit, and a result.  With no interference the
CAS succeeds on the first try, so: committed transformations replace the cell,
declined ones leave it untouched.  Returns the new cell value and the result. -/
def atomic_try_update {T R : Type} (cell : T) (func : T → T × Bool × R) : T × R :=
  match func cell with
  | (newval, true, res) => (newval, res)
  | (_, false, res) => (cell, res)

theorem atomic_try_update_def {T R : Type} (cell : T) (func : T → T × Bool × R) :
    atomic_try_update cell func =
      (if (func cell).2.1 then (func cell).1 else cell, (func cell).2.2) := by
  unfold atomic_try_update
  rcases h : func cell with ⟨t, b, r⟩
  cases b <;> simp

/-! ## Node chains and the consuming iterator (src/lib.rs `Node`, `NodeIterator`)

A chain of heap nodes is a `List`, head node first.  `NodeIterator` owns such a
chain; `next` unlinks and frees the head node, yielding its value. -/

/-- src/lib.rs `NodeIterator::next`: yield the head node's value (freeing the
node) and advance, or `none` on the empty chain.  Returns the yielded value and
the remaining chain. -/
def NodeIterator.next {T : Type} : List T → Option T × List T
  | [] => (none, [])
  | x :: rest => (some x, rest)

/-- The relink loop inside src/lib.rs `NodeIterator::rev`: pop the head of
`self` and push it onto `ret` until `self` is empty. -/
def NodeIterator.rev_loop {T : Type} : List T → List T → List T
  | [], ret => ret
  | x :: rest, ret => NodeIterator.rev_loop rest (x :: ret)

/-- src/lib.rs `NodeIterator::rev`: in-place O(n) chain reversal. -/
def NodeIterator.rev {T : Type} (self : List T) : List T :=
  NodeIterator.rev_loop self []

theorem NodeIterator.rev_loop_eq {T : Type} :
    ∀ (l acc : List T), NodeIterator.rev_loop l acc = l.reverse ++ acc := by
  intro l
  induction l with
  | nil => intro acc; simp [NodeIterator.rev_loop]
  | cons x rest ih =>
      intro acc
      simp [NodeIterator.rev_loop, ih]

theorem NodeIterator.rev_eq_reverse {T : Type} (l : List T) :
    NodeIterator.rev l = l.reverse := by
  simp [NodeIterator.rev, NodeIterator.rev_loop_eq]

/-! ## Lock-free stack (src/stack.rs `Stack`) -/

/-- src/stack.rs: a default `Stack` has an all-zero atom, i.e. a null head. -/
def Stack.empty (T : Type) : List T := []

/-- src/stack.rs `Stack::push`: allocate a node, then commit
`node.next := head; head := node`. -/
def Stack.push {T : Type} (s : List T) (v : T) : List T :=
  (atomic_try_update s (fun head => (v :: head, true, ()))).1

/-- src/stack.rs `Stack::pop_all`: commit `ret := head; head := null` and wrap
`ret` in a consuming iterator.  Returns (new stack state, iterator chain). -/
def Stack.pop_all {T : Type} (s : List T) : List T × List T :=
  let r := atomic_try_update s (fun head => ([], true, head))
  (r.1, r.2)

theorem Stack.push_cons {T : Type} (s : List T) (v : T) : Stack.push s v = v :: s := rfl

theorem Stack.pop_all_eq {T : Type} (s : List T) : Stack.pop_all s = ([], s) := rfl

theorem Stack.foldl_push {T : Type} :
    ∀ (vs : List T) (s : List T), vs.foldl Stack.push s = vs.reverse ++ s := by
  intro vs
  induction vs with
  | nil => intro s; simp
  | cons v rest ih =>
      intro s
      simp [List.foldl_cons, Stack.push_cons, ih]

/-! ## Bit-packed flag+integer field (src/bits.rs `FlagU64`)

`val` is the raw `u64` bit pattern: flag in bit 0, a 63-bit value in bits
1..63.  We model `u64` as `Nat` together with the invariant `val < 2^64`
(carried as a hypothesis where an operation's behaviour depends on it). -/

/-- 2^64, the modulus of `u64` arithmetic. -/
def U64_MOD : Nat := 2 ^ 64

structure FlagU64 where
  val : Nat
deriving DecidableEq, Repr

/-- src/bits.rs `FlagU64::get_val`: `self.val >> 1`. -/
def FlagU64.get_val (f : FlagU64) : Nat := f.val >>> 1

/-- src/bits.rs `FlagU64::get_flag`: `(self.val & 0x1) == 1`. -/
def FlagU64.get_flag (f : FlagU64) : Bool := f.val &&& 1 == 1

/-- src/bits.rs `FlagU64::set_val`: `self.val = (self.val & 0x1) | (val << 1)`,
the shift performed in `u64` (silent truncation of the top bit). -/
def FlagU64.set_val (f : FlagU64) (v : Nat) : FlagU64 :=
  ⟨(f.val &&& 1) ||| ((v <<< 1) % U64_MOD)⟩

/-- src/bits.rs `FlagU64::set_flag`: `self.val = (self.val & !0x1) | u64::from(flag)`;
`!0x1` on `u64` is `2^64 - 2`. -/
def FlagU64.set_flag (f : FlagU64) (b : Bool) : FlagU64 :=
  ⟨(f.val &&& (U64_MOD - 2)) ||| (if b then 1 else 0)⟩

/-! ### Arithmetic characterizations of the bit operations -/

theorem lor_one_of_even {m : Nat} (hm : m % 2 = 0) : m ||| 1 = m + 1 := by
  apply Nat.eq_of_testBit_eq
  intro i
  cases i with
  | zero =>
      rw [Nat.testBit_lor, Nat.testBit_zero, Nat.testBit_zero, Nat.testBit_zero]
      have h1 : (m + 1) % 2 = 1 := by omega
      simp [hm, h1]
  | succ j =>
      rw [Nat.testBit_lor, Nat.testBit_succ, Nat.testBit_succ, Nat.testBit_succ]
      have h1 : (1 : Nat) / 2 = 0 := by norm_num
      have h2 : (m + 1) / 2 = m / 2 := by omega
      rw [h1, h2, Nat.zero_testBit, Bool.or_false]

theorem lor_even_of_le_one {c m : Nat} (hc : c ≤ 1) (hm : m % 2 = 0) :
    c ||| m = m + c := by
  interval_cases c
  · simp
  · rw [Nat.lor_comm]
    exact lor_one_of_even hm

theorem land_two_mul (x m : Nat) : x &&& 2 * m = 2 * ((x / 2) &&& m) := by
  apply Nat.eq_of_testBit_eq
  intro i
  cases i with
  | zero =>
      simp only [Nat.testBit_land, Nat.testBit_zero]
      have h1 : 2 * m % 2 = 0 := by omega
      have h2 : 2 * (x / 2 &&& m) % 2 = 0 := by omega
      simp [h1, h2]
  | succ j =>
      rw [Nat.testBit_land, Nat.testBit_succ, Nat.testBit_succ, Nat.testBit_succ]
      have h1 : 2 * m / 2 = m := by omega
      have h2 : 2 * (x / 2 &&& m) / 2 = (x / 2) &&& m := by omega
      rw [h1, h2, Nat.testBit_land]

theorem land_two_pow_sub_one (x n : Nat) : x &&& (2 ^ n - 1) = x % 2 ^ n := by
  apply Nat.eq_of_testBit_eq
  intro i
  rw [Nat.testBit_land, Nat.testBit_two_pow_sub_one, Nat.testBit_mod_two_pow]
  rw [Bool.and_comm]

/-- Clearing bit 0 with the `u64` mask `!0x1` rounds a (representable) value
down to an even number. -/
theorem land_u64_mask_eq (x : Nat) (h : x < U64_MOD) :
    x &&& (U64_MOD - 2) = 2 * (x / 2) := by
  have hm : U64_MOD - 2 = 2 * (2 ^ 63 - 1) := by
    unfold U64_MOD
    norm_num
  rw [hm, land_two_mul, land_two_pow_sub_one]
  have hx : x / 2 < 2 ^ 63 := by
    unfold U64_MOD at h
    omega
  rw [Nat.mod_eq_of_lt hx]

theorem FlagU64.get_val_mk (x : Nat) : FlagU64.get_val ⟨x⟩ = x / 2 := by
  simp [FlagU64.get_val, Nat.shiftRight_eq_div_pow]

theorem FlagU64.get_flag_mk (x : Nat) :
    FlagU64.get_flag ⟨x⟩ = decide (x % 2 = 1) := by
  unfold FlagU64.get_flag
  show (x &&& 1 == 1) = decide (x % 2 = 1)
  rw [Nat.and_one_is_mod]
  rcases Nat.mod_two_eq_zero_or_one x with h | h <;> simp [h]

theorem FlagU64.set_val_mk (x v : Nat) :
    FlagU64.set_val ⟨x⟩ v = ⟨2 * (v % 2 ^ 63) + x % 2⟩ := by
  unfold FlagU64.set_val
  have h1 : x &&& 1 = x % 2 := Nat.and_one_is_mod x
  have h2 : (v <<< 1) % U64_MOD = 2 * (v % 2 ^ 63) := by
    rw [Nat.shiftLeft_eq]
    unfold U64_MOD
    have : (2 : Nat) ^ 64 = 2 * 2 ^ 63 := by norm_num
    rw [this]
    have hv : v * 2 ^ 1 = 2 * v := by ring
    rw [hv, Nat.mul_mod_mul_left]
  rw [h1, h2, lor_even_of_le_one (by omega) (by omega)]

theorem FlagU64.set_flag_mk (x : Nat) (b : Bool) (h : x < U64_MOD) :
    FlagU64.set_flag ⟨x⟩ b = ⟨2 * (x / 2) + b.toNat⟩ := by
  unfold FlagU64.set_flag
  rw [land_u64_mask_eq x h]
  cases b with
  | false =>
      show FlagU64.mk (2 * (x / 2) ||| 0) = ⟨2 * (x / 2) + 0⟩
      rw [Nat.or_zero, Nat.add_zero]
  | true =>
      show FlagU64.mk (2 * (x / 2) ||| 1) = ⟨2 * (x / 2) + 1⟩
      rw [lor_one_of_even (by omega)]

/-- `set_val` leaves the flag bit alone. -/
theorem FlagU64.get_flag_set_val (f : FlagU64) (v : Nat) :
    (f.set_val v).get_flag = f.get_flag := by
  rcases f with ⟨x⟩
  rw [FlagU64.set_val_mk, FlagU64.get_flag_mk, FlagU64.get_flag_mk]
  have : (2 * (v % 2 ^ 63) + x % 2) % 2 = x % 2 := by omega
  rw [this]

/-- `set_val` stores `v` truncated to 63 bits. -/
theorem FlagU64.get_val_set_val (f : FlagU64) (v : Nat) :
    (f.set_val v).get_val = v % 2 ^ 63 := by
  rcases f with ⟨x⟩
  rw [FlagU64.set_val_mk, FlagU64.get_val_mk]
  omega

theorem bool_toNat_mod_two (k : Nat) (b : Bool) : (2 * k + b.toNat) % 2 = b.toNat := by
  cases b
  · show (2 * k + 0) % 2 = 0
    omega
  · show (2 * k + 1) % 2 = 1
    omega

/-- `set_flag` installs exactly the requested flag. -/
theorem FlagU64.get_flag_set_flag (f : FlagU64) (b : Bool) (h : f.val < U64_MOD) :
    (f.set_flag b).get_flag = b := by
  rcases f with ⟨x⟩
  have hx : x < U64_MOD := h
  rw [FlagU64.set_flag_mk x b hx, FlagU64.get_flag_mk, bool_toNat_mod_two]
  cases b
  · decide
  · decide

/-- `set_flag` preserves the 63 value bits. -/
theorem FlagU64.get_val_set_flag (f : FlagU64) (b : Bool) (h : f.val < U64_MOD) :
    (f.set_flag b).get_val = f.get_val := by
  rcases f with ⟨x⟩
  have hx : x < U64_MOD := h
  rw [FlagU64.set_flag_mk x b hx, FlagU64.get_val_mk, FlagU64.get_val_mk]
  cases b
  · show (2 * (x / 2) + 0) / 2 = x / 2
    omega
  · show (2 * (x / 2) + 1) / 2 = x / 2
    omega

/-- `set_val` produces a representable `u64`. -/
theorem FlagU64.set_val_lt (f : FlagU64) (v : Nat) : (f.set_val v).val < U64_MOD := by
  rcases f with ⟨x⟩
  rw [FlagU64.set_val_mk]
  show 2 * (v % 2 ^ 63) + x % 2 < U64_MOD
  unfold U64_MOD
  have : v % 2 ^ 63 < 2 ^ 63 := Nat.mod_lt _ (by norm_num)
  omega

/-- `set_flag` produces a representable `u64`. -/
theorem FlagU64.set_flag_lt (f : FlagU64) (b : Bool) (h : f.val < U64_MOD) :
    (f.set_flag b).val < U64_MOD := by
  rcases f with ⟨x⟩
  have hx : x < U64_MOD := h
  rw [FlagU64.set_flag_mk x b hx]
  show 2 * (x / 2) + b.toNat < U64_MOD
  have hb : b.toNat ≤ 1 := Bool.toNat_le b
  unfold U64_MOD at hx ⊢
  omega

/-! ## Write-ordering claim queue (src/claim.rs `WriteOrderingQueue`)

The atom packs a node-chain head (modelled as a `List`, head first) with a
`FlagU64` whose 63-bit value is the running byte offset and whose flag is the
claim bit.  `Countable::get_count` becomes an explicit size function
`cnt : T → Nat`. -/

structure CountingClaimHead (T : Type) where
  next : List T
  count_and_claim : FlagU64

/-- src/claim.rs: a default `WriteOrderingQueue` has an all-zero atom: empty
chain, offset 0, claim bit clear. -/
def WriteOrderingQueue.empty (T : Type) : CountingClaimHead T := ⟨[], ⟨0⟩⟩

/-- src/claim.rs `WriteOrderingQueue::push`.  `sz := val.get_count()`; the
transaction links the new node at the head, reads the old offset and claim bit,
stores `old_count + sz` (a wrapping `u64` addition followed by `set_val`'s
63-bit truncation) and sets the claim bit.  Returns the new queue state and
`(old_offset, had_claim)`. -/
def WriteOrderingQueue.push {T : Type} (cnt : T → Nat) (q : CountingClaimHead T)
    (v : T) : CountingClaimHead T × (Nat × Bool) :=
  let sz := cnt v
  atomic_try_update q (fun head =>
    let head := { head with next := v :: head.next }
    let old_count := head.count_and_claim.get_val
    let have_claim := !head.count_and_claim.get_flag
    let head := { head with
      count_and_claim := head.count_and_claim.set_val ((old_count + sz) % U64_MOD) }
    let head := { head with
      count_and_claim := head.count_and_claim.set_flag true }
    (head, true, (old_count, have_claim)))

/-- The transaction inside src/claim.rs `WriteOrderingQueue::consume_or_release_claim`:
detach the chain; if it was empty also clear the claim bit.  Returns the
committed queue state together with `(ret, had_claim, claimed)`.  This is the
memory effect of the operation even when the subsequent `assert!(had_claim)`
fires. -/
def WriteOrderingQueue.consumeRaw {T : Type} (q : CountingClaimHead T) :
    CountingClaimHead T × (List T × Bool × Bool) :=
  atomic_try_update q (fun head =>
    let ret := head.next
    let had_claim := head.count_and_claim.get_flag
    let head := { head with next := [] }
    if ret.isEmpty then
      ({ head with count_and_claim := head.count_and_claim.set_flag false },
        true, (ret, had_claim, false))
    else
      (head, true, (ret, had_claim, true)))

/-- src/claim.rs `WriteOrderingQueue::consume_or_release_claim`: run the
transaction, `assert!(had_claim)` (modelled as `none` on assertion failure),
and hand back the detached chain reversed into push order plus the
"still holding the claim" bit. -/
def WriteOrderingQueue.consume_or_release_claim {T : Type} (q : CountingClaimHead T) :
    Option (CountingClaimHead T × (List T × Bool)) :=
  let r := WriteOrderingQueue.consumeRaw q
  let node := r.2.1
  let had_claim := r.2.2.1
  let claimed := r.2.2.2
  if had_claim then some (r.1, (NodeIterator.rev node, claimed)) else none

/-- src/claim.rs `WriteOrderingQueue::get_offset`: a non-committing transaction
returning the current 63-bit offset. -/
def WriteOrderingQueue.get_offset {T : Type} (q : CountingClaimHead T) :
    CountingClaimHead T × Nat :=
  atomic_try_update q (fun head => (head, false, head.count_and_claim.get_val))

theorem WriteOrderingQueue.push_eq {T : Type} (cnt : T → Nat)
    (q : CountingClaimHead T) (v : T) :
    WriteOrderingQueue.push cnt q v =
      (⟨v :: q.next,
        (q.count_and_claim.set_val
          ((q.count_and_claim.get_val + cnt v) % U64_MOD)).set_flag true⟩,
       (q.count_and_claim.get_val, !q.count_and_claim.get_flag)) := by
  rfl

theorem WriteOrderingQueue.consumeRaw_nil {T : Type} (cc : FlagU64) :
    WriteOrderingQueue.consumeRaw (⟨[], cc⟩ : CountingClaimHead T) =
      (⟨[], cc.set_flag false⟩, ([], cc.get_flag, false)) := rfl

theorem WriteOrderingQueue.consumeRaw_cons {T : Type} (x : T) (l : List T)
    (cc : FlagU64) :
    WriteOrderingQueue.consumeRaw ⟨x :: l, cc⟩ =
      (⟨[], cc⟩, (x :: l, cc.get_flag, true)) := rfl

theorem WriteOrderingQueue.consumeRaw_next_nil {T : Type} (q : CountingClaimHead T) :
    (WriteOrderingQueue.consumeRaw q).1.next = [] := by
  rcases q with ⟨next, cc⟩
  cases next
  · rfl
  · rfl

theorem WriteOrderingQueue.get_offset_eq {T : Type} (q : CountingClaimHead T) :
    WriteOrderingQueue.get_offset q = (q, q.count_and_claim.get_val) := rfl

/-- The claim bit is set after every `push`. -/
theorem WriteOrderingQueue.push_sets_claim {T : Type} (cnt : T → Nat)
    (q : CountingClaimHead T) (v : T) :
    (WriteOrderingQueue.push cnt q v).1.count_and_claim.get_flag = true := by
  rw [WriteOrderingQueue.push_eq]
  exact FlagU64.get_flag_set_flag _ true (FlagU64.set_val_lt _ _)

/-- States of the queue reachable from the default (empty, offset 0, claim
clear) by `push` and `consume_or_release_claim` transactions.  The `consume`
step uses the committed state of the transaction (`consumeRaw`), which is the
queue's memory state even when the post-transaction claim assertion fires. -/
inductive WriteOrderingQueue.Reach {T : Type} (cnt : T → Nat) :
    CountingClaimHead T → Prop
  | init : WriteOrderingQueue.Reach cnt (WriteOrderingQueue.empty T)
  | push (q : CountingClaimHead T) (v : T) :
      WriteOrderingQueue.Reach cnt q →
      WriteOrderingQueue.Reach cnt (WriteOrderingQueue.push cnt q v).1
  | consume (q : CountingClaimHead T) :
      WriteOrderingQueue.Reach cnt q →
      WriteOrderingQueue.Reach cnt (WriteOrderingQueue.consumeRaw q).1

/-! ## Dynamic shutdown barrier (src/barrier.rs `ShutdownBarrier`)

The atom is a `FlagU64`: 63-bit worker count, 1-bit cancel flag.  The tokio
broadcast channel is an external collaborator and is not part of the state;
`wait`'s async receive is likewise outside the model, only its state
transaction is embedded. -/

structure ShutdownBarrierDoneResult where
  cancelled : Bool
  shutdown_leader : Bool
deriving DecidableEq, Repr

inductive ShutdownBarrierError
  | AlreadyShutdown
deriving DecidableEq, Repr

inductive DoneResult
  | Cancelled
  | AlreadyDone
  | ShutdownLeader
  | Running
deriving DecidableEq, Repr

inductive WaitResult
  | StillRunning
  | Shutdown
  | Cancelled
deriving DecidableEq, Repr

/-- src/barrier.rs `ShutdownBarrier::default`: all-zero atom, then a
transaction committing `set_val(1)`. -/
def ShutdownBarrier.init : FlagU64 :=
  (atomic_try_update (⟨0⟩ : FlagU64) (fun s => (s.set_val 1, true, ()))).1

/-- src/barrier.rs `ShutdownBarrier::spawn`: error (no commit) if the cancel
flag is set or the count is 0, else commit `count + 1`. -/
def ShutdownBarrier.spawn (s : FlagU64) : FlagU64 × Except ShutdownBarrierError Unit :=
  let r := atomic_try_update s (fun s =>
    let count := s.get_val
    if s.get_flag || count == 0 then (s, false, true)
    else (s.set_val (count + 1), true, false))
  (r.1, if r.2 then Except.error ShutdownBarrierError.AlreadyShutdown else Except.ok ())

/-- src/barrier.rs `ShutdownBarrier::cancel`: error (no commit) if the cancel
flag is set or the count is 0, else commit `flag := true`.  The broadcast of
`true` is external. -/
def ShutdownBarrier.cancel (s : FlagU64) : FlagU64 × Except ShutdownBarrierError Unit :=
  let r := atomic_try_update s (fun s =>
    let count := s.get_val
    if s.get_flag || count == 0 then (s, false, true)
    else (s.set_flag true, true, false))
  (r.1, if r.2 then Except.error ShutdownBarrierError.AlreadyShutdown else Except.ok ())

/-- src/barrier.rs `ShutdownBarrier::done`: speculatively store `count - 1`
(wrapping `u64` subtraction, then `set_val`'s 63-bit truncation), then pick the
outcome from the cancel flag and the pre-decrement count.  `AlreadyDone` does
not commit.  The broadcast of `false` on `ShutdownLeader` is external. -/
def ShutdownBarrier.done (s : FlagU64) :
    FlagU64 × Except ShutdownBarrierError ShutdownBarrierDoneResult :=
  let r := atomic_try_update s (fun s =>
    let count := s.get_val
    let s := s.set_val ((count + (U64_MOD - 1)) % U64_MOD)
    if s.get_flag then (s, true, DoneResult.Cancelled)
    else if count == 0 then (s, false, DoneResult.AlreadyDone)
    else if count == 1 then (s, true, DoneResult.ShutdownLeader)
    else (s, true, DoneResult.Running))
  match r.2 with
  | DoneResult.Cancelled => (r.1, Except.ok ⟨true, false⟩)
  | DoneResult.ShutdownLeader => (r.1, Except.ok ⟨false, true⟩)
  | DoneResult.Running => (r.1, Except.ok ⟨false, false⟩)
  | DoneResult.AlreadyDone => (r.1, Except.error ShutdownBarrierError.AlreadyShutdown)

/-- The state transaction inside src/barrier.rs `ShutdownBarrier::wait` (the
subscription and the await on the broadcast are external).  Only the
`Shutdown` branch commits, and it commits an unmodified scratch. -/
def ShutdownBarrier.wait (s : FlagU64) : FlagU64 × WaitResult :=
  atomic_try_update s (fun s =>
    let count := s.get_val
    if s.get_flag then (s, false, WaitResult.Cancelled)
    else if count == 0 then (s, true, WaitResult.Shutdown)
    else (s, false, WaitResult.StillRunning))

theorem ShutdownBarrier.init_eq : ShutdownBarrier.init = ⟨2⟩ := by decide

theorem ShutdownBarrier.spawn_fail (s : FlagU64)
    (h : (s.get_flag || s.get_val == 0) = true) :
    ShutdownBarrier.spawn s = (s, Except.error ShutdownBarrierError.AlreadyShutdown) := by
  unfold ShutdownBarrier.spawn atomic_try_update
  simp [h]

theorem ShutdownBarrier.spawn_ok (s : FlagU64)
    (h : (s.get_flag || s.get_val == 0) = false) :
    ShutdownBarrier.spawn s = (s.set_val (s.get_val + 1), Except.ok ()) := by
  unfold ShutdownBarrier.spawn atomic_try_update
  simp [h]

theorem ShutdownBarrier.cancel_fail (s : FlagU64)
    (h : (s.get_flag || s.get_val == 0) = true) :
    ShutdownBarrier.cancel s = (s, Except.error ShutdownBarrierError.AlreadyShutdown) := by
  unfold ShutdownBarrier.cancel atomic_try_update
  simp [h]

theorem ShutdownBarrier.cancel_ok (s : FlagU64)
    (h : (s.get_flag || s.get_val == 0) = false) :
    ShutdownBarrier.cancel s = (s.set_flag true, Except.ok ()) := by
  unfold ShutdownBarrier.cancel atomic_try_update
  simp [h]

theorem ShutdownBarrier.done_cancelled (s : FlagU64) (h : s.get_flag = true) :
    ShutdownBarrier.done s =
      (s.set_val ((s.get_val + (U64_MOD - 1)) % U64_MOD), Except.ok ⟨true, false⟩) := by
  unfold ShutdownBarrier.done atomic_try_update
  have h2 : (s.set_val ((s.get_val + (U64_MOD - 1)) % U64_MOD)).get_flag = true := by
    rw [FlagU64.get_flag_set_val]
    exact h
  simp [h2]

theorem ShutdownBarrier.done_already (s : FlagU64) (hf : s.get_flag = false)
    (hc : s.get_val = 0) :
    ShutdownBarrier.done s = (s, Except.error ShutdownBarrierError.AlreadyShutdown) := by
  unfold ShutdownBarrier.done atomic_try_update
  have h2 : ∀ w, (s.set_val w).get_flag = false := by
    intro w
    rw [FlagU64.get_flag_set_val]
    exact hf
  simp [h2, hc]

theorem ShutdownBarrier.done_leader (s : FlagU64) (hf : s.get_flag = false)
    (hc : s.get_val = 1) :
    ShutdownBarrier.done s = (s.set_val 0, Except.ok ⟨false, true⟩) := by
  unfold ShutdownBarrier.done atomic_try_update
  have h2 : ∀ w, (s.set_val w).get_flag = false := by
    intro w
    rw [FlagU64.get_flag_set_val]
    exact hf
  have h3 : (1 + (U64_MOD - 1)) % U64_MOD = 0 := by
    unfold U64_MOD
    norm_num
  simp [h2, hc, h3]

theorem ShutdownBarrier.done_running (s : FlagU64) (hf : s.get_flag = false)
    (hc : 2 ≤ s.get_val) :
    ShutdownBarrier.done s =
      (s.set_val ((s.get_val + (U64_MOD - 1)) % U64_MOD), Except.ok ⟨false, false⟩) := by
  unfold ShutdownBarrier.done atomic_try_update
  have h2 : ∀ w, (s.set_val w).get_flag = false := by
    intro w
    rw [FlagU64.get_flag_set_val]
    exact hf
  have h3 : (s.get_val == 0) = false := by
    simp
    omega
  have h4 : (s.get_val == 1) = false := by
    simp
    omega
  simp [h2, h3, h4]

theorem ShutdownBarrier.wait_state_id (s : FlagU64) : (ShutdownBarrier.wait s).1 = s := by
  unfold ShutdownBarrier.wait atomic_try_update
  cases hf : s.get_flag
  · cases hc : (s.get_val == 0)
    · simp [hf, hc]
    · simp [hf, hc]
  · simp [hf]

/-! ### Operation traces on the barrier

A trace is a list of operations; each step applies the operation's state
transaction.  `leaders` counts the `done` calls along the trace that report
`shutdown_leader = true`; `succSpawns` counts the `spawn` calls that return
`Ok`; `doneCount` counts all `done` calls. -/

inductive BOp
  | spawn
  | cancel
  | done
  | wait
deriving DecidableEq, Repr

def barrierApply (s : FlagU64) : BOp → FlagU64
  | BOp.spawn => (ShutdownBarrier.spawn s).1
  | BOp.cancel => (ShutdownBarrier.cancel s).1
  | BOp.done => (ShutdownBarrier.done s).1
  | BOp.wait => (ShutdownBarrier.wait s).1

def isLeaderDone (s : FlagU64) : BOp → Bool
  | BOp.done =>
      match (ShutdownBarrier.done s).2 with
      | Except.ok r => r.shutdown_leader
      | Except.error _ => false
  | _ => false

def isSuccSpawn (s : FlagU64) : BOp → Bool
  | BOp.spawn =>
      match (ShutdownBarrier.spawn s).2 with
      | Except.ok _ => true
      | Except.error _ => false
  | _ => false

def runOps (s : FlagU64) : List BOp → FlagU64
  | [] => s
  | op :: rest => runOps (barrierApply s op) rest

def leaders (s : FlagU64) : List BOp → Nat
  | [] => 0
  | op :: rest => (if isLeaderDone s op then 1 else 0) + leaders (barrierApply s op) rest

def succSpawns (s : FlagU64) : List BOp → Nat
  | [] => 0
  | op :: rest => (if isSuccSpawn s op then 1 else 0) + succSpawns (barrierApply s op) rest

def doneCount (ops : List BOp) : Nat := ops.count BOp.done

/-! ## Bit-packed flag+pointer field (src/bits.rs `FlagPtr`)

`val` is a `usize` bit pattern: a pointer with its low 3 bits stolen for a tag.
Pointers are modelled as `Nat` addresses, `0` being null.  The `assert!`s in
`set_ptr` (pointer 8-byte aligned) and `set_flag` (tag ≤ 7) never fire on the
arguments used by the once-cell; the masking below is the source's own. -/

structure FlagPtr where
  val : Nat
deriving DecidableEq, Repr

/-- `FlagPtr::MASK = 0b111`. -/
def FlagPtr.MASK : Nat := 7

/-- src/bits.rs `FlagPtr::get_ptr`: `(self.val & !MASK)`; `!MASK` on a 64-bit
`usize` is `2^64 - 8`. -/
def FlagPtr.get_ptr (f : FlagPtr) : Nat := f.val &&& (U64_MOD - 8)

/-- src/bits.rs `FlagPtr::set_ptr`: `self.val = (ptr & !MASK) | (self.val & MASK)`. -/
def FlagPtr.set_ptr (f : FlagPtr) (ptr : Nat) : FlagPtr :=
  ⟨(ptr &&& (U64_MOD - 8)) ||| (f.val &&& FlagPtr.MASK)⟩

/-- src/bits.rs `FlagPtr::get_flag`: `self.val & MASK`. -/
def FlagPtr.get_flag (f : FlagPtr) : Nat := f.val &&& FlagPtr.MASK

/-- src/bits.rs `FlagPtr::set_flag`: `self.val = (self.val & !MASK) | (flag & MASK)`. -/
def FlagPtr.set_flag (f : FlagPtr) (flag : Nat) : FlagPtr :=
  ⟨(f.val &&& (U64_MOD - 8)) ||| (flag &&& FlagPtr.MASK)⟩

/-! ## Wait-free once-cell (src/once.rs `OnceLockFree`)

The atom is a `FlagPtr` whose 3-bit tag is the lifecycle, and whose pointer is
the heap address of the boxed value (0 = null).  Panics — the `UseAfterFreeBug`
arm of `panic_on_memory_bug` and the in-transaction `panic!("torn read?")` —
are modelled as `none` results. -/

inductive Lifecycle
  | NotSet
  | Setting
  | Set
  | Dead
deriving DecidableEq, Repr

/-- `#[derive(IntoPrimitive)]`: the `usize` value of a lifecycle tag. -/
def Lifecycle.toNat : Lifecycle → Nat
  | Lifecycle.NotSet => 0
  | Lifecycle.Setting => 1
  | Lifecycle.Set => 2
  | Lifecycle.Dead => 3

/-- `#[derive(TryFromPrimitive)]`: decode a tag, failing on 4..7 ("torn read"). -/
def Lifecycle.tryFrom (n : Nat) : Option Lifecycle :=
  if n == 0 then some Lifecycle.NotSet
  else if n == 1 then some Lifecycle.Setting
  else if n == 2 then some Lifecycle.Set
  else if n == 3 then some Lifecycle.Dead
  else none

inductive OnceLockFreeInternalError
  | AlreadySet
  | AttemptToReadWhenUnset
  | AttemptToSetConcurrently
  | UseAfterFreeBug
  | UnpreparedForSet
deriving DecidableEq, Repr

inductive OnceLockFreeError
  | AlreadySet
  | AttemptToReadWhenUnset
  | AttemptToSetConcurrently
  | UnpreparedForSet
deriving DecidableEq, Repr

/-- src/once.rs `panic_on_memory_bug`: map internal errors to the public enum;
`UseAfterFreeBug` panics (`none`). -/
def panic_on_memory_bug : OnceLockFreeInternalError → Option OnceLockFreeError
  | OnceLockFreeInternalError.AlreadySet => some OnceLockFreeError.AlreadySet
  | OnceLockFreeInternalError.AttemptToReadWhenUnset =>
      some OnceLockFreeError.AttemptToReadWhenUnset
  | OnceLockFreeInternalError.AttemptToSetConcurrently =>
      some OnceLockFreeError.AttemptToSetConcurrently
  | OnceLockFreeInternalError.UseAfterFreeBug => none
  | OnceLockFreeInternalError.UnpreparedForSet => some OnceLockFreeError.UnpreparedForSet

structure OnceLockFreeState where
  flag_ptr : FlagPtr
deriving DecidableEq, Repr

/-- Map a transaction's internal result to the public result: `none` is a
panic (either the in-transaction torn read, already `none`, or
`panic_on_memory_bug` hitting `UseAfterFreeBug`). -/
def OnceLockFree.mapResult {A : Type} :
    Option (Except OnceLockFreeInternalError A) → Option (Except OnceLockFreeError A)
  | none => none
  | some (Except.ok v) => some (Except.ok v)
  | some (Except.error e) =>
      match panic_on_memory_bug e with
      | some e2 => some (Except.error e2)
      | none => none

/-- src/once.rs `OnceLockFree::new` / `Default`: all-zero atom (tag `NotSet`,
null pointer). -/
def OnceLockFree.new : OnceLockFreeState := ⟨⟨0⟩⟩

/-- src/once.rs `OnceLockFree::get_or_seal`.  `NotSet` commits tag `Set` with a
null pointer; `Set` returns the current pointer (null-sensitive) without
committing; `Setting` and `Dead` are errors; an undecodable tag panics in the
transaction.  Returns the new cell state and the result (`none` = panic). -/
def OnceLockFree.get_or_seal (s : OnceLockFreeState) :
    OnceLockFreeState × Option (Except OnceLockFreeError (Option Nat)) :=
  let r := atomic_try_update s (fun s =>
    match Lifecycle.tryFrom s.flag_ptr.get_flag with
    | some Lifecycle.NotSet =>
        let s1 : OnceLockFreeState :=
          ⟨(s.flag_ptr.set_flag Lifecycle.Set.toNat).set_ptr 0⟩
        (s1, true, some (Except.ok none))
    | some Lifecycle.Setting =>
        (s, false,
          some (Except.error OnceLockFreeInternalError.AttemptToSetConcurrently))
    | some Lifecycle.Set =>
        let ptr := s.flag_ptr.get_ptr
        (s, false, some (Except.ok (if ptr == 0 then none else some ptr)))
    | some Lifecycle.Dead =>
        (s, false, some (Except.error OnceLockFreeInternalError.UseAfterFreeBug))
    | none => (s, false, none))
  (r.1, OnceLockFree.mapResult r.2)

/-- src/once.rs `OnceLockFree::get`: `get_or_seal`, with the sealed-empty
(`Ok(None)`) case turned into `AttemptToReadWhenUnset`. -/
def OnceLockFree.get (s : OnceLockFreeState) :
    OnceLockFreeState × Option (Except OnceLockFreeError Nat) :=
  match OnceLockFree.get_or_seal s with
  | (s1, some (Except.ok (some ptr))) => (s1, some (Except.ok ptr))
  | (s1, some (Except.ok none)) =>
      (s1, some (Except.error OnceLockFreeError.AttemptToReadWhenUnset))
  | (s1, some (Except.error e)) => (s1, some (Except.error e))
  | (s1, none) => (s1, none)

/-- src/once.rs `OnceLockFree::set`: `ptr` is the address of the freshly boxed
`Align8<T>` (`Box::into_raw`).  `NotSet` commits tag `Set` with that pointer
and returns it; `Setting`, `Set` and `Dead` do not commit. -/
def OnceLockFree.set (s : OnceLockFreeState) (ptr : Nat) :
    OnceLockFreeState × Option (Except OnceLockFreeError Nat) :=
  let r := atomic_try_update s (fun s =>
    match Lifecycle.tryFrom s.flag_ptr.get_flag with
    | some Lifecycle.NotSet =>
        let s1 : OnceLockFreeState :=
          ⟨(s.flag_ptr.set_flag Lifecycle.Set.toNat).set_ptr ptr⟩
        (s1, true, some (Except.ok ()))
    | some Lifecycle.Setting =>
        (s, false,
          some (Except.error OnceLockFreeInternalError.AttemptToSetConcurrently))
    | some Lifecycle.Set =>
        (s, false, some (Except.error OnceLockFreeInternalError.AlreadySet))
    | some Lifecycle.Dead =>
        (s, false, some (Except.error OnceLockFreeInternalError.UseAfterFreeBug))
    | none => (s, false, none))
  (r.1,
    match OnceLockFree.mapResult r.2 with
    | some (Except.ok ()) => some (Except.ok ptr)
    | some (Except.error e) => some (Except.error e)
    | none => none)

/-! ## Atom size assertions (src/lib.rs `Atom::default`) -/

/-- src/lib.rs `Atom::<T, U>::default` asserts
`size_of::<T>() <= size_of::<U>()` and
`size_of::<U>() <= 4 || size_of::<T>() > size_of::<U>() / 2`.
This predicate is true iff both assertions pass (i.e. the constructor does not
panic). -/
def Atom.default_ok (sizeT sizeU : Nat) : Bool :=
  decide (sizeT ≤ sizeU) && (decide (sizeU ≤ 4) || decide (sizeU / 2 < sizeT))

/-- Modelled from the spec: "Invariants: `sizeof(T) ≤ sizeof(U)`, and `U` is no
more than twice the size of `T`" — the size discipline the specification
claims `Atom`'s constructor enforces. -/
def Atom.spec_size_invariant (sizeT sizeU : Nat) : Bool :=
  decide (sizeT ≤ sizeU) && decide (sizeU ≤ 2 * sizeT)

/-! ### Leader counting lemmas -/

theorem FlagU64.get_val_two_mul (c : Nat) : FlagU64.get_val ⟨2 * c⟩ = c := by
  rw [FlagU64.get_val_mk]
  omega

theorem FlagU64.get_flag_two_mul (c : Nat) : FlagU64.get_flag ⟨2 * c⟩ = false := by
  rw [FlagU64.get_flag_mk]
  simp

theorem FlagU64.set_val_two_mul (c v : Nat) :
    FlagU64.set_val ⟨2 * c⟩ v = ⟨2 * (v % 2 ^ 63)⟩ := by
  rw [FlagU64.set_val_mk]
  congr 1
  omega

/-- A barrier state from which no `done` can ever report leadership: the
cancel flag is set, or the count is zero. -/
def barrierDead (s : FlagU64) : Prop := s.get_flag = true ∨ s.get_val = 0

theorem barrierDead_guard (s : FlagU64) (h : barrierDead s) :
    (s.get_flag || s.get_val == 0) = true := by
  rcases h with h | h
  · simp [h]
  · simp [h]

theorem barrierApply_dead (s : FlagU64) (op : BOp) (h : barrierDead s) :
    barrierDead (barrierApply s op) := by
  cases op with
  | spawn =>
      show barrierDead (ShutdownBarrier.spawn s).1
      rw [ShutdownBarrier.spawn_fail s (barrierDead_guard s h)]
      exact h
  | cancel =>
      show barrierDead (ShutdownBarrier.cancel s).1
      rw [ShutdownBarrier.cancel_fail s (barrierDead_guard s h)]
      exact h
  | wait =>
      show barrierDead (ShutdownBarrier.wait s).1
      rw [ShutdownBarrier.wait_state_id]
      exact h
  | done =>
      show barrierDead (ShutdownBarrier.done s).1
      cases hf : s.get_flag with
      | true =>
          rw [ShutdownBarrier.done_cancelled s hf]
          left
          rw [FlagU64.get_flag_set_val]
          exact hf
      | false =>
          have hc : s.get_val = 0 := by
            rcases h with h | h
            · rw [hf] at h
              exact absurd h (by simp)
            · exact h
          rw [ShutdownBarrier.done_already s hf hc]
          right
          exact hc

theorem isLeaderDone_dead (s : FlagU64) (op : BOp) (h : barrierDead s) :
    isLeaderDone s op = false := by
  cases op with
  | spawn => rfl
  | cancel => rfl
  | wait => rfl
  | done =>
      show (match (ShutdownBarrier.done s).2 with
        | Except.ok r => r.shutdown_leader
        | Except.error _ => false) = false
      cases hf : s.get_flag with
      | true => rw [ShutdownBarrier.done_cancelled s hf]
      | false =>
          have hc : s.get_val = 0 := by
            rcases h with h | h
            · rw [hf] at h
              exact absurd h (by simp)
            · exact h
          rw [ShutdownBarrier.done_already s hf hc]

theorem leaders_dead (ops : List BOp) :
    ∀ s : FlagU64, barrierDead s → leaders s ops = 0 := by
  induction ops with
  | nil => intro s _; rfl
  | cons op rest ih =>
      intro s h
      show (if isLeaderDone s op then 1 else 0) + leaders (barrierApply s op) rest = 0
      rw [isLeaderDone_dead s op h, ih (barrierApply s op) (barrierApply_dead s op h)]
      simp

theorem isLeaderDone_imp_dead (s : FlagU64) (op : BOp)
    (h : isLeaderDone s op = true) : barrierDead (barrierApply s op) := by
  cases op with
  | spawn => exact absurd h (by simp [isLeaderDone])
  | cancel => exact absurd h (by simp [isLeaderDone])
  | wait => exact absurd h (by simp [isLeaderDone])
  | done =>
      show barrierDead (ShutdownBarrier.done s).1
      cases hf : s.get_flag with
      | true =>
          rw [ShutdownBarrier.done_cancelled s hf]
          left
          rw [FlagU64.get_flag_set_val]
          exact hf
      | false =>
          by_cases hc0 : s.get_val = 0
          · have := h
            unfold isLeaderDone at this
            rw [ShutdownBarrier.done_already s hf hc0] at this
            exact absurd this (by simp)
          · by_cases hc1 : s.get_val = 1
            · rw [ShutdownBarrier.done_leader s hf hc1]
              right
              rw [FlagU64.get_val_set_val]
              simp
            · have hc2 : 2 ≤ s.get_val := by omega
              have := h
              unfold isLeaderDone at this
              rw [ShutdownBarrier.done_running s hf hc2] at this
              exact absurd this (by simp)

theorem leaders_le_one (ops : List BOp) : ∀ s : FlagU64, leaders s ops ≤ 1 := by
  induction ops with
  | nil => intro s; exact Nat.zero_le 1
  | cons op rest ih =>
      intro s
      show (if isLeaderDone s op then 1 else 0) + leaders (barrierApply s op) rest ≤ 1
      cases hl : isLeaderDone s op with
      | false =>
          simpa using ih (barrierApply s op)
      | true =>
          rw [leaders_dead rest (barrierApply s op) (isLeaderDone_imp_dead s op hl)]
          simp

theorem doneCount_cons_done (rest : List BOp) :
    doneCount (BOp.done :: rest) = doneCount rest + 1 := by
  unfold doneCount
  rw [List.count_cons]
  simp

theorem doneCount_cons_wait (rest : List BOp) :
    doneCount (BOp.wait :: rest) = doneCount rest := by
  unfold doneCount
  rw [List.count_cons]
  simp

theorem doneCount_cons_spawn (rest : List BOp) :
    doneCount (BOp.spawn :: rest) = doneCount rest := by
  unfold doneCount
  rw [List.count_cons]
  simp

theorem doneCount_nil : doneCount [] = 0 := rfl

/-- From a live state with count `c ≥ 1` and clear flag, a cancel-free trace
whose `done` calls number exactly the successful spawns plus the current count
— and whose spawns keep the 63-bit counter from wrapping — reports leadership
exactly once. -/
theorem leaders_exactly_one (ops : List BOp) :
    ∀ c : Nat, BOp.cancel ∉ ops → 1 ≤ c →
      c + succSpawns ⟨2 * c⟩ ops ≤ 2 ^ 63 - 1 →
      doneCount ops = c + succSpawns ⟨2 * c⟩ ops →
      leaders ⟨2 * c⟩ ops = 1 := by
  induction ops with
  | nil =>
      intro c _ hc _ hdone
      rw [doneCount_nil] at hdone
      have hS : succSpawns ⟨2 * c⟩ [] = 0 := rfl
      rw [hS] at hdone
      omega
  | cons op rest ih =>
      intro c hnc hc hbound hdone
      have hnc2 : BOp.cancel ∉ rest := fun h => hnc (List.mem_cons_of_mem op h)
      have hgv : FlagU64.get_val ⟨2 * c⟩ = c := FlagU64.get_val_two_mul c
      have hgf : FlagU64.get_flag ⟨2 * c⟩ = false := FlagU64.get_flag_two_mul c
      cases op with
      | cancel => exact absurd (List.mem_cons_self _ _) hnc
      | wait =>
          have happ : barrierApply ⟨2 * c⟩ BOp.wait = ⟨2 * c⟩ :=
            ShutdownBarrier.wait_state_id ⟨2 * c⟩
          have hS : succSpawns ⟨2 * c⟩ (BOp.wait :: rest) = succSpawns ⟨2 * c⟩ rest := by
            show (if isSuccSpawn ⟨2 * c⟩ BOp.wait then 1 else 0)
                + succSpawns (barrierApply ⟨2 * c⟩ BOp.wait) rest = _
            rw [happ]
            simp [isSuccSpawn]
          rw [hS] at hbound hdone
          rw [doneCount_cons_wait] at hdone
          show (if isLeaderDone ⟨2 * c⟩ BOp.wait then 1 else 0)
              + leaders (barrierApply ⟨2 * c⟩ BOp.wait) rest = 1
          rw [happ]
          have hrest : leaders ⟨2 * c⟩ rest = 1 := ih c hnc2 hc hbound hdone
          rw [hrest]
          simp [isLeaderDone]
      | spawn =>
          have hg : (FlagU64.get_flag ⟨2 * c⟩ || FlagU64.get_val ⟨2 * c⟩ == 0) = false := by
            rw [hgv, hgf]
            simp
            omega
          have hspawn := ShutdownBarrier.spawn_ok ⟨2 * c⟩ hg
          have hss : isSuccSpawn ⟨2 * c⟩ BOp.spawn = true := by
            show (match (ShutdownBarrier.spawn ⟨2 * c⟩).2 with
              | Except.ok _ => true
              | Except.error _ => false) = true
            rw [hspawn]
          have happ0 : barrierApply ⟨2 * c⟩ BOp.spawn = ⟨2 * ((c + 1) % 2 ^ 63)⟩ := by
            show (ShutdownBarrier.spawn ⟨2 * c⟩).1 = _
            rw [hspawn, hgv, FlagU64.set_val_two_mul]
          have hS : succSpawns ⟨2 * c⟩ (BOp.spawn :: rest)
              = 1 + succSpawns ⟨2 * ((c + 1) % 2 ^ 63)⟩ rest := by
            show (if isSuccSpawn ⟨2 * c⟩ BOp.spawn then 1 else 0)
                + succSpawns (barrierApply ⟨2 * c⟩ BOp.spawn) rest = _
            rw [hss, happ0]
            simp
          rw [hS] at hbound hdone
          have hlt : c + 1 ≤ 2 ^ 63 - 1 := by omega
          have hmod : (c + 1) % 2 ^ 63 = c + 1 := by omega
          rw [hmod] at hbound hdone
          rw [doneCount_cons_spawn] at hdone
          show (if isLeaderDone ⟨2 * c⟩ BOp.spawn then 1 else 0)
              + leaders (barrierApply ⟨2 * c⟩ BOp.spawn) rest = 1
          rw [happ0, hmod]
          have hrest : leaders ⟨2 * (c + 1)⟩ rest = 1 :=
            ih (c + 1) hnc2 (by omega) (by omega) (by omega)
          rw [hrest]
          simp [isLeaderDone]
      | done =>
          by_cases hc1 : c = 1
          · subst hc1
            have hdl := ShutdownBarrier.done_leader ⟨2 * 1⟩ hgf (by rw [hgv])
            have happ : barrierApply ⟨2 * 1⟩ BOp.done = ⟨2 * (0 % 2 ^ 63)⟩ := by
              show (ShutdownBarrier.done ⟨2 * 1⟩).1 = _
              rw [hdl, FlagU64.set_val_two_mul]
            have hld : isLeaderDone ⟨2 * 1⟩ BOp.done = true := by
              show (match (ShutdownBarrier.done ⟨2 * 1⟩).2 with
                | Except.ok r => r.shutdown_leader
                | Except.error _ => false) = true
              rw [hdl]
            show (if isLeaderDone ⟨2 * 1⟩ BOp.done then 1 else 0)
                + leaders (barrierApply ⟨2 * 1⟩ BOp.done) rest = 1
            rw [hld, happ]
            have hdead : barrierDead ⟨2 * (0 % 2 ^ 63)⟩ :=
              Or.inr (FlagU64.get_val_two_mul (0 % 2 ^ 63))
            rw [leaders_dead rest _ hdead]
            simp
          · have hc2 : 2 ≤ c := by omega
            have hdr := ShutdownBarrier.done_running ⟨2 * c⟩ hgf (by rw [hgv]; omega)
            have hcb : c ≤ 2 ^ 63 - 1 := by omega
            have hmod : (c + (U64_MOD - 1)) % U64_MOD = c - 1 := by
              unfold U64_MOD
              omega
            have hmod2 : (c - 1) % 2 ^ 63 = c - 1 := by omega
            have happ : barrierApply ⟨2 * c⟩ BOp.done = ⟨2 * (c - 1)⟩ := by
              show (ShutdownBarrier.done ⟨2 * c⟩).1 = _
              rw [hdr, hgv, hmod, FlagU64.set_val_two_mul, hmod2]
            have hld : isLeaderDone ⟨2 * c⟩ BOp.done = false := by
              show (match (ShutdownBarrier.done ⟨2 * c⟩).2 with
                | Except.ok r => r.shutdown_leader
                | Except.error _ => false) = false
              rw [hdr]
            have hS : succSpawns ⟨2 * c⟩ (BOp.done :: rest)
                = succSpawns ⟨2 * (c - 1)⟩ rest := by
              show (if isSuccSpawn ⟨2 * c⟩ BOp.done then 1 else 0)
                  + succSpawns (barrierApply ⟨2 * c⟩ BOp.done) rest = _
              rw [happ]
              simp [isSuccSpawn]
            rw [hS] at hbound hdone
            rw [doneCount_cons_done] at hdone
            show (if isLeaderDone ⟨2 * c⟩ BOp.done then 1 else 0)
                + leaders (barrierApply ⟨2 * c⟩ BOp.done) rest = 1
            rw [hld, happ]
            have hrest : leaders ⟨2 * (c - 1)⟩ rest = 1 :=
              ih (c - 1) hnc2 (by omega) (by omega) (by omega)
            rw [hrest]
            simp

theorem runOps_append (l1 l2 : List BOp) :
    ∀ s : FlagU64, runOps s (l1 ++ l2) = runOps (runOps s l1) l2 := by
  induction l1 with
  | nil => intro s; rfl
  | cons op rest ih => intro s; exact ih (barrierApply s op)

theorem succSpawns_append (l1 l2 : List BOp) :
    ∀ s : FlagU64,
      succSpawns s (l1 ++ l2) = succSpawns s l1 + succSpawns (runOps s l1) l2 := by
  induction l1 with
  | nil =>
      intro s
      rw [List.nil_append]
      show succSpawns s l2 = 0 + succSpawns s l2
      omega
  | cons op rest ih =>
      intro s
      show (if isSuccSpawn s op then 1 else 0) + succSpawns (barrierApply s op) (rest ++ l2) = _
      rw [ih (barrierApply s op)]
      show _ = (if isSuccSpawn s op then 1 else 0) + succSpawns (barrierApply s op) rest
          + succSpawns (runOps (barrierApply s op) rest) l2
      omega

theorem leaders_append (l1 l2 : List BOp) :
    ∀ s : FlagU64, leaders s (l1 ++ l2) = leaders s l1 + leaders (runOps s l1) l2 := by
  induction l1 with
  | nil =>
      intro s
      rw [List.nil_append]
      show leaders s l2 = 0 + leaders s l2
      omega
  | cons op rest ih =>
      intro s
      show (if isLeaderDone s op then 1 else 0) + leaders (barrierApply s op) (rest ++ l2) = _
      rw [ih (barrierApply s op)]
      show _ = (if isLeaderDone s op then 1 else 0) + leaders (barrierApply s op) rest
          + leaders (runOps (barrierApply s op) rest) l2
      omega

theorem doneCount_append (l1 l2 : List BOp) :
    doneCount (l1 ++ l2) = doneCount l1 + doneCount l2 := by
  unfold doneCount
  rw [List.count_append]

theorem doneCount_replicate_spawn (k : Nat) :
    doneCount (List.replicate k BOp.spawn) = 0 := by
  induction k with
  | zero => rfl
  | succ n ih =>
      rw [List.replicate_succ, doneCount_cons_spawn, ih]

theorem doneCount_replicate_done (k : Nat) :
    doneCount (List.replicate k BOp.done) = k := by
  induction k with
  | zero => rfl
  | succ n ih =>
      rw [List.replicate_succ, doneCount_cons_done, ih]

/-- Running `k` successful spawns from a live state: the count rises by `k`
(no truncation while it stays below `2^63`), every spawn succeeds, and no
leadership is reported. -/
theorem spawn_run (k : Nat) :
    ∀ c : Nat, 1 ≤ c → c + k ≤ 2 ^ 63 - 1 →
      runOps ⟨2 * c⟩ (List.replicate k BOp.spawn) = ⟨2 * (c + k)⟩ ∧
      succSpawns ⟨2 * c⟩ (List.replicate k BOp.spawn) = k ∧
      leaders ⟨2 * c⟩ (List.replicate k BOp.spawn) = 0 := by
  induction k with
  | zero =>
      intro c _ _
      refine ⟨rfl, rfl, rfl⟩
  | succ n ih =>
      intro c hc hbound
      have hg : (FlagU64.get_flag ⟨2 * c⟩ || FlagU64.get_val ⟨2 * c⟩ == 0) = false := by
        rw [FlagU64.get_val_two_mul, FlagU64.get_flag_two_mul]
        simp
        omega
      have hspawn := ShutdownBarrier.spawn_ok ⟨2 * c⟩ hg
      have hmod : (c + 1) % 2 ^ 63 = c + 1 := by omega
      have happ : barrierApply ⟨2 * c⟩ BOp.spawn = ⟨2 * (c + 1)⟩ := by
        show (ShutdownBarrier.spawn ⟨2 * c⟩).1 = _
        rw [hspawn, FlagU64.get_val_two_mul, FlagU64.set_val_two_mul, hmod]
      have hss : isSuccSpawn ⟨2 * c⟩ BOp.spawn = true := by
        show (match (ShutdownBarrier.spawn ⟨2 * c⟩).2 with
          | Except.ok _ => true
          | Except.error _ => false) = true
        rw [hspawn]
      have ihc := ih (c + 1) (by omega) (by omega)
      rw [List.replicate_succ]
      refine ⟨?_, ?_, ?_⟩
      · show runOps (barrierApply ⟨2 * c⟩ BOp.spawn) (List.replicate n BOp.spawn) = _
        rw [happ, ihc.1]
        congr 1
        omega
      · show (if isSuccSpawn ⟨2 * c⟩ BOp.spawn then 1 else 0)
            + succSpawns (barrierApply ⟨2 * c⟩ BOp.spawn) (List.replicate n BOp.spawn) = n + 1
        rw [hss, happ, ihc.2.1]
        rw [if_pos rfl]
        omega
      · show (if isLeaderDone ⟨2 * c⟩ BOp.spawn then 1 else 0)
            + leaders (barrierApply ⟨2 * c⟩ BOp.spawn) (List.replicate n BOp.spawn) = 0
        rw [happ, ihc.2.2]
        simp [isLeaderDone]

/-- Running `done` any number of times from the frozen all-zero state: every
call returns `AlreadyShutdown` without committing, so the state stays put and
nobody is a leader. -/
theorem done_run_zero (k : Nat) :
    runOps ⟨0⟩ (List.replicate k BOp.done) = ⟨0⟩ ∧
    succSpawns ⟨0⟩ (List.replicate k BOp.done) = 0 ∧
    leaders ⟨0⟩ (List.replicate k BOp.done) = 0 := by
  have hzf : FlagU64.get_flag ⟨0⟩ = false := by
    rw [FlagU64.get_flag_mk]
    simp
  have hzv : FlagU64.get_val ⟨0⟩ = 0 := by
    rw [FlagU64.get_val_mk]
  have hda := ShutdownBarrier.done_already ⟨0⟩ hzf hzv
  have happ : barrierApply ⟨0⟩ BOp.done = ⟨0⟩ := by
    show (ShutdownBarrier.done ⟨0⟩).1 = ⟨0⟩
    rw [hda]
  have hld : isLeaderDone ⟨0⟩ BOp.done = false := by
    show (match (ShutdownBarrier.done ⟨0⟩).2 with
      | Except.ok r => r.shutdown_leader
      | Except.error _ => false) = false
    rw [hda]
  induction k with
  | zero => exact ⟨rfl, rfl, rfl⟩
  | succ n ih =>
      rw [List.replicate_succ]
      refine ⟨?_, ?_, ?_⟩
      · show runOps (barrierApply ⟨0⟩ BOp.done) (List.replicate n BOp.done) = ⟨0⟩
        rw [happ, ih.1]
      · show (if isSuccSpawn ⟨0⟩ BOp.done then 1 else 0)
            + succSpawns (barrierApply ⟨0⟩ BOp.done) (List.replicate n BOp.done) = 0
        rw [happ, ih.2.1]
        simp [isSuccSpawn]
      · show (if isLeaderDone ⟨0⟩ BOp.done then 1 else 0)
            + leaders (barrierApply ⟨0⟩ BOp.done) (List.replicate n BOp.done) = 0
        rw [hld, happ, ih.2.2]
        simp

/-- A trace exhibiting the 63-bit counter wrap: `2^63 - 1` spawns (the last of
which silently truncates the count to zero) followed by `2^63` dones (all of
which fail with `AlreadyShutdown`). -/
def ceTrace : List BOp :=
  List.replicate (2 ^ 63 - 2) BOp.spawn ++ [BOp.spawn] ++ List.replicate (2 ^ 63) BOp.done

theorem ceTrace_no_cancel : BOp.cancel ∉ ceTrace := by
  intro hmem
  unfold ceTrace at hmem
  rcases List.mem_append.mp hmem with hmem | hmem
  · rcases List.mem_append.mp hmem with hmem | hmem
    · exact absurd (List.mem_replicate.mp hmem).2 (by decide)
    · exact absurd (List.mem_singleton.mp hmem) (by decide)
  · exact absurd (List.mem_replicate.mp hmem).2 (by decide)

theorem ceTrace_phase1 :
    runOps ⟨2 * 1⟩ (List.replicate (2 ^ 63 - 2) BOp.spawn) = ⟨2 * (2 ^ 63 - 1)⟩ ∧
    succSpawns ⟨2 * 1⟩ (List.replicate (2 ^ 63 - 2) BOp.spawn) = 2 ^ 63 - 2 ∧
    leaders ⟨2 * 1⟩ (List.replicate (2 ^ 63 - 2) BOp.spawn) = 0 := by
  have h := spawn_run (2 ^ 63 - 2) 1 (by omega) (by omega)
  refine ⟨?_, h.2.1, h.2.2⟩
  rw [h.1]
  norm_num

theorem ceTrace_phase2_apply :
    barrierApply ⟨2 * (2 ^ 63 - 1)⟩ BOp.spawn = ⟨0⟩ := by
  have hg : (FlagU64.get_flag ⟨2 * (2 ^ 63 - 1)⟩
      || FlagU64.get_val ⟨2 * (2 ^ 63 - 1)⟩ == 0) = false := by
    rw [FlagU64.get_val_two_mul, FlagU64.get_flag_two_mul]
    simp
  show (ShutdownBarrier.spawn ⟨2 * (2 ^ 63 - 1)⟩).1 = ⟨0⟩
  rw [ShutdownBarrier.spawn_ok _ hg, FlagU64.get_val_two_mul, FlagU64.set_val_two_mul]
  have h0 : 2 * ((2 ^ 63 - 1 + 1) % 2 ^ 63) = 0 := by omega
  rw [h0]

theorem ceTrace_phase2_succ :
    succSpawns ⟨2 * (2 ^ 63 - 1)⟩ [BOp.spawn] = 1 := by
  have hg : (FlagU64.get_flag ⟨2 * (2 ^ 63 - 1)⟩
      || FlagU64.get_val ⟨2 * (2 ^ 63 - 1)⟩ == 0) = false := by
    rw [FlagU64.get_val_two_mul, FlagU64.get_flag_two_mul]
    simp
  show (if isSuccSpawn ⟨2 * (2 ^ 63 - 1)⟩ BOp.spawn then 1 else 0)
      + succSpawns (barrierApply ⟨2 * (2 ^ 63 - 1)⟩ BOp.spawn) [] = 1
  have hss : isSuccSpawn ⟨2 * (2 ^ 63 - 1)⟩ BOp.spawn = true := by
    show (match (ShutdownBarrier.spawn ⟨2 * (2 ^ 63 - 1)⟩).2 with
      | Except.ok _ => true
      | Except.error _ => false) = true
    rw [ShutdownBarrier.spawn_ok _ hg]
  rw [hss, if_pos rfl]
  rfl

theorem ceTrace_phase2_run :
    runOps ⟨2 * (2 ^ 63 - 1)⟩ [BOp.spawn] = ⟨0⟩ := by
  show runOps (barrierApply ⟨2 * (2 ^ 63 - 1)⟩ BOp.spawn) [] = ⟨0⟩
  rw [ceTrace_phase2_apply]
  rfl

theorem ceTrace_phase2_leaders :
    leaders ⟨2 * (2 ^ 63 - 1)⟩ [BOp.spawn] = 0 := rfl

theorem ceTrace_stats :
    doneCount ceTrace = 2 ^ 63 ∧
    succSpawns ⟨2 * 1⟩ ceTrace = 2 ^ 63 - 1 ∧
    leaders ⟨2 * 1⟩ ceTrace = 0 := by
  unfold ceTrace
  refine ⟨?_, ?_, ?_⟩
  · rw [doneCount_append, doneCount_append, doneCount_replicate_spawn,
      doneCount_replicate_done]
    have h1 : doneCount [BOp.spawn] = 0 := rfl
    rw [h1]
    omega
  · rw [succSpawns_append, succSpawns_append, runOps_append,
      ceTrace_phase1.1, ceTrace_phase1.2.1, ceTrace_phase2_succ,
      ceTrace_phase2_run, done_run_zero (2 ^ 63) |>.2.1]
    omega
  · rw [leaders_append, leaders_append, runOps_append,
      ceTrace_phase1.1, ceTrace_phase1.2.2, ceTrace_phase2_leaders,
      ceTrace_phase2_run, done_run_zero (2 ^ 63) |>.2.2]

/-! ## Claim theorems -/

/-- C1: for every initial cell value and every transformation, the sequential
`atomic_try_update` returns the result chosen by the transformation and never
returns an error (its type has no error channel and it is total); if the
transformation declines (`false`), the cell is unchanged (no store); if it
commits (`true`), the cell afterwards holds the value the transformation
produced by mutating a copy of the old value. -/
theorem claim_C1_atomic_try_update {T R : Type} (cell : T) (func : T → T × Bool × R) :
    (atomic_try_update cell func).2 = (func cell).2.2 ∧
    ((func cell).2.1 = false → (atomic_try_update cell func).1 = cell) ∧
    ((func cell).2.1 = true → (atomic_try_update cell func).1 = (func cell).1) := by
  unfold atomic_try_update
  rcases h : func cell with ⟨t, b, r⟩
  cases b
  · exact ⟨rfl, fun _ => rfl, fun hb => absurd hb (by simp)⟩
  · exact ⟨rfl, fun hb => absurd hb (by simp), fun _ => rfl⟩

theorem claim_C1_atomic_try_update_witness :
    (atomic_try_update 0 (fun n : Nat => (n + 1, true, 5))).2 = 5 ∧
    (atomic_try_update 0 (fun n : Nat => (n + 1, true, 5))).1 = 1 ∧
    (atomic_try_update 0 (fun n : Nat => (n + 1, false, 7))).1 = 0 :=
  ⟨(claim_C1_atomic_try_update 0 (fun n : Nat => (n + 1, true, 5))).1,
   (claim_C1_atomic_try_update 0 (fun n : Nat => (n + 1, true, 5))).2.2 rfl,
   (claim_C1_atomic_try_update 0 (fun n : Nat => (n + 1, false, 7))).2.1 rfl⟩

/-- C2: from the empty stack, after pushing `v1, ..., vn` (left to right),
`pop_all` yields exactly `vn, ..., v1` (LIFO, head first), its `rev` yields
`v1, ..., vn` (FIFO), the stack is empty afterwards, and a `pop_all().next()`
on the emptied stack returns `none`. -/
theorem claim_C2_stack_lifo {T : Type} (vs : List T) :
    (Stack.pop_all (vs.foldl Stack.push (Stack.empty T))).2 = vs.reverse ∧
    NodeIterator.rev (Stack.pop_all (vs.foldl Stack.push (Stack.empty T))).2 = vs ∧
    (Stack.pop_all (vs.foldl Stack.push (Stack.empty T))).1 = Stack.empty T ∧
    (NodeIterator.next
      (Stack.pop_all (Stack.pop_all (vs.foldl Stack.push (Stack.empty T))).1).2).1
      = none := by
  have hfold : vs.foldl Stack.push (Stack.empty T) = vs.reverse := by
    rw [Stack.foldl_push]
    simp [Stack.empty]
  rw [hfold]
  refine ⟨rfl, ?_, rfl, rfl⟩
  show NodeIterator.rev vs.reverse = vs
  rw [NodeIterator.rev_eq_reverse, List.reverse_reverse]

/-- C3 (amended): `push` returns `(old_offset, had_claim)` — the stored offset
before the push and the negation of the prior claim bit — and afterwards the
new node is at the front of the chain, the claim bit is set, and the stored
offset equals `(old_offset + v.get_count()) mod 2^63` (`set_val` silently
truncates the 64-bit sum to the 63-bit value field). -/
theorem claim_C3_push {T : Type} (cnt : T → Nat) (q : CountingClaimHead T) (v : T) :
    (WriteOrderingQueue.push cnt q v).2 =
      (q.count_and_claim.get_val, !q.count_and_claim.get_flag) ∧
    (WriteOrderingQueue.push cnt q v).1.next = v :: q.next ∧
    (WriteOrderingQueue.push cnt q v).1.count_and_claim.get_val
      = (q.count_and_claim.get_val + cnt v) % 2 ^ 63 ∧
    (WriteOrderingQueue.push cnt q v).1.count_and_claim.get_flag = true := by
  rw [WriteOrderingQueue.push_eq]
  refine ⟨rfl, rfl, ?_, ?_⟩
  · rw [FlagU64.get_val_set_flag _ _ (FlagU64.set_val_lt _ _), FlagU64.get_val_set_val]
    unfold U64_MOD
    omega
  · exact FlagU64.get_flag_set_flag _ true (FlagU64.set_val_lt _ _)

/-- C3 counterexample: at offset `2^63 - 1`, pushing an item of count 1 stores
offset 0, not `2^63`: the claimed exact equality
"stored offset = old_offset + v.get_count()" fails. -/
theorem claim_C3_push_counterexample :
    ¬ ((WriteOrderingQueue.push (fun v => v)
        (⟨[], ⟨2 * (2 ^ 63 - 1)⟩⟩ : CountingClaimHead Nat) 1).1.count_and_claim.get_val
      = FlagU64.get_val ⟨2 * (2 ^ 63 - 1)⟩ + 1) := by decide

/-- C4: with the claim held (flag set, representable state),
`consume_or_release_claim` passes its claim assertion, detaches the entire
chain, hands it back reversed into push order (FIFO), and returns
still-holding = false iff the queue was empty — in which case, and only in
which case, the claim flag is cleared; otherwise it remains set. -/
theorem WriteOrderingQueue.consume_nil {T : Type} (cc : FlagU64)
    (h : cc.get_flag = true) :
    WriteOrderingQueue.consume_or_release_claim (⟨[], cc⟩ : CountingClaimHead T)
      = some (⟨[], cc.set_flag false⟩, ([], false)) := by
  unfold WriteOrderingQueue.consume_or_release_claim
  rw [WriteOrderingQueue.consumeRaw_nil]
  simp [h]
  rfl

theorem WriteOrderingQueue.consume_cons {T : Type} (x : T) (l : List T)
    (cc : FlagU64) (h : cc.get_flag = true) :
    WriteOrderingQueue.consume_or_release_claim ⟨x :: l, cc⟩
      = some (⟨[], cc⟩, ((x :: l).reverse, true)) := by
  unfold WriteOrderingQueue.consume_or_release_claim
  rw [WriteOrderingQueue.consumeRaw_cons]
  simp [h, NodeIterator.rev_eq_reverse]

/-- C4: with the claim held (flag set, representable state),
`consume_or_release_claim` passes its claim assertion, detaches the entire
chain, hands it back reversed into push order (FIFO), and returns
still-holding = false iff the queue was empty — in which case, and only in
which case, the claim flag is cleared; otherwise it remains set. -/
theorem claim_C4_consume {T : Type} (q : CountingClaimHead T)
    (h : q.count_and_claim.get_flag = true) (hv : q.count_and_claim.val < U64_MOD) :
    ∃ q2 iter still,
      WriteOrderingQueue.consume_or_release_claim q = some (q2, (iter, still)) ∧
      q2.next = [] ∧
      iter = q.next.reverse ∧
      (still = false ↔ q.next = []) ∧
      (q.next = [] → q2.count_and_claim.get_flag = false) ∧
      (q.next ≠ [] → q2.count_and_claim.get_flag = true) := by
  rcases q with ⟨next, cc⟩
  have h2 : cc.get_flag = true := h
  have hv2 : cc.val < U64_MOD := hv
  cases next with
  | nil =>
      refine ⟨⟨[], cc.set_flag false⟩, [], false,
        WriteOrderingQueue.consume_nil cc h2, rfl, rfl, by simp, ?_, ?_⟩
      · intro _
        exact FlagU64.get_flag_set_flag cc false hv2
      · intro hne
        exact absurd rfl hne
  | cons x l =>
      refine ⟨⟨[], cc⟩, (x :: l).reverse, true,
        WriteOrderingQueue.consume_cons x l cc h2, rfl, rfl, by simp, ?_, ?_⟩
      · intro hco
        exact absurd hco (by simp)
      · intro _
        exact h2

theorem claim_C4_consume_witness :
    ∃ q2 iter still,
      WriteOrderingQueue.consume_or_release_claim
          (⟨[5], ⟨1⟩⟩ : CountingClaimHead Nat) = some (q2, (iter, still)) ∧
      q2.next = [] ∧
      iter = ([5] : List Nat).reverse ∧
      (still = false ↔ ([5] : List Nat) = []) ∧
      (([5] : List Nat) = [] → q2.count_and_claim.get_flag = false) ∧
      (([5] : List Nat) ≠ [] → q2.count_and_claim.get_flag = true) :=
  claim_C4_consume ⟨[5], ⟨1⟩⟩ (by decide) (by decide)

/-- C5: in every queue state reachable from the default state by `push` and
`consume_or_release_claim`, a non-empty chain implies the claim bit is set. -/
theorem claim_C5_invariant {T : Type} (cnt : T → Nat) (q : CountingClaimHead T)
    (hr : WriteOrderingQueue.Reach cnt q) :
    q.next ≠ [] → q.count_and_claim.get_flag = true := by
  induction hr with
  | init => intro hne; exact absurd rfl hne
  | push q v _ _ => intro _; exact WriteOrderingQueue.push_sets_claim cnt q v
  | consume q _ _ =>
      intro hne
      exact absurd (WriteOrderingQueue.consumeRaw_next_nil q) hne

theorem claim_C5_invariant_witness :
    (WriteOrderingQueue.push (fun v => v)
      (WriteOrderingQueue.empty Nat) 5).1.count_and_claim.get_flag = true :=
  claim_C5_invariant (fun v => v) _
    (WriteOrderingQueue.Reach.push _ 5 WriteOrderingQueue.Reach.init) (by decide)

/-- C6: on a fresh cell, `get_or_seal` commits `Set` with a null pointer and
returns `Ok(None)`; after that seal, every further `get_or_seal` returns
`Ok(None)`, every `set` returns `Err(AlreadySet)` (for any boxed address), and
`get` returns `Err(AttemptToReadWhenUnset)`; none of those calls changes the
sealed state. -/
theorem claim_C6_seal (p : Nat) :
    OnceLockFree.get_or_seal OnceLockFree.new = (⟨⟨2⟩⟩, some (Except.ok none)) ∧
    OnceLockFree.get_or_seal ⟨⟨2⟩⟩ = (⟨⟨2⟩⟩, some (Except.ok none)) ∧
    OnceLockFree.set ⟨⟨2⟩⟩ p = (⟨⟨2⟩⟩, some (Except.error OnceLockFreeError.AlreadySet)) ∧
    OnceLockFree.get ⟨⟨2⟩⟩
      = (⟨⟨2⟩⟩, some (Except.error OnceLockFreeError.AttemptToReadWhenUnset)) :=
  ⟨rfl, rfl, rfl, rfl⟩

/-- C7: `done` decrements the count (a wrapping `u64` decrement stored through
`set_val`); with the cancel flag set it commits and returns cancelled, without
it: count 0 is `AlreadyShutdown` with no commit, count 1 commits and reports
the leader, larger counts commit and report a plain running worker. -/
theorem claim_C7_done (s : FlagU64) :
    (s.get_flag = true →
      ShutdownBarrier.done s =
        (s.set_val ((s.get_val + (U64_MOD - 1)) % U64_MOD),
          Except.ok ⟨true, false⟩)) ∧
    (s.get_flag = false → s.get_val = 0 →
      ShutdownBarrier.done s = (s, Except.error ShutdownBarrierError.AlreadyShutdown)) ∧
    (s.get_flag = false → s.get_val = 1 →
      ShutdownBarrier.done s = (s.set_val 0, Except.ok ⟨false, true⟩)) ∧
    (s.get_flag = false → 2 ≤ s.get_val →
      ShutdownBarrier.done s =
        (s.set_val ((s.get_val + (U64_MOD - 1)) % U64_MOD),
          Except.ok ⟨false, false⟩)) :=
  ⟨ShutdownBarrier.done_cancelled s, ShutdownBarrier.done_already s,
   ShutdownBarrier.done_leader s, ShutdownBarrier.done_running s⟩

theorem claim_C7_done_witness :
    ShutdownBarrier.done ⟨2⟩ = (FlagU64.set_val ⟨2⟩ 0, Except.ok ⟨false, true⟩) :=
  (claim_C7_done ⟨2⟩).2.2.1 (by decide) (by decide)

/-- C8 (amended): on every operation trace from the initial barrier state, at
most one `done` reports leadership; and it is exactly one when each successful
spawn is matched by one `done` plus one `done` for the initial worker, `cancel`
is never called, and fewer than `2^63 - 1` spawns succeed (so the 63-bit
counter never wraps). -/
theorem claim_C8_leader (ops : List BOp) :
    leaders ShutdownBarrier.init ops ≤ 1 ∧
    (BOp.cancel ∉ ops →
      doneCount ops = succSpawns ShutdownBarrier.init ops + 1 →
      succSpawns ShutdownBarrier.init ops ≤ 2 ^ 63 - 2 →
      leaders ShutdownBarrier.init ops = 1) := by
  constructor
  · exact leaders_le_one ops ShutdownBarrier.init
  · intro hnc hdone hbound
    have hinit : ShutdownBarrier.init = ⟨2 * 1⟩ := ShutdownBarrier.init_eq
    rw [hinit] at hdone hbound ⊢
    exact leaders_exactly_one ops 1 hnc (Nat.le_refl 1) (by omega) (by omega)

theorem claim_C8_leader_witness :
    leaders ShutdownBarrier.init [BOp.done] ≤ 1 ∧
    leaders ShutdownBarrier.init [BOp.done] = 1 :=
  ⟨(claim_C8_leader [BOp.done]).1,
   (claim_C8_leader [BOp.done]).2 (by decide) (by decide) (by decide)⟩

/-- C8 counterexample: after `2^63 - 1` successful spawns the 63-bit count
silently wraps to zero, so a trace in which every successful spawn is matched
by a `done` (plus one for the initial worker) and `cancel` is never called
still reports no leader at all — "exactly one" fails. -/
theorem claim_C8_leader_counterexample :
    BOp.cancel ∉ ceTrace ∧
    doneCount ceTrace = succSpawns ShutdownBarrier.init ceTrace + 1 ∧
    ¬ leaders ShutdownBarrier.init ceTrace = 1 := by
  have hinit : ShutdownBarrier.init = ⟨2 * 1⟩ := ShutdownBarrier.init_eq
  refine ⟨ceTrace_no_cancel, ?_, ?_⟩
  · rw [hinit, ceTrace_stats.1, ceTrace_stats.2.1]
    omega
  · rw [hinit, ceTrace_stats.2.2]
    omega

/-- C9 (amended): `Atom::default` succeeds iff `sizeof(T) ≤ sizeof(U)` and
(`sizeof(U) ≤ 4` or `sizeof(U) < 2·sizeof(T)` — strictly less, since the code
asserts `sizeof(T) > sizeof(U) / 2` with integer division). -/
theorem claim_C9_atom_size (sizeT sizeU : Nat) :
    Atom.default_ok sizeT sizeU = true ↔
      sizeT ≤ sizeU ∧ (sizeU ≤ 4 ∨ sizeU < 2 * sizeT) := by
  unfold Atom.default_ok
  simp only [Bool.and_eq_true, Bool.or_eq_true, decide_eq_true_eq]
  omega

/-- C9 counterexample: at `sizeof(T) = 4`, `sizeof(U) = 8` (e.g. `T = u32`,
`U = u64`) the spec's invariant `sizeof(U) ≤ 2·sizeof(T)` holds but the
constructor's assertion fails (it panics), so "succeeds iff both inequalities
hold" is false. -/
theorem claim_C9_atom_size_counterexample :
    ¬ (Atom.default_ok 4 8 = true ↔ Atom.spec_size_invariant 4 8 = true) := by decide

/-- C10: `consume_or_release_claim` leaves the stored 63-bit offset unchanged
(both in its committed transaction state and in its returned state),
`FlagU64.set_flag` preserves the value bits, and `get_offset` is a
non-committing read returning the current offset with the state untouched;
of the queue operations only `push` changes the offset. -/
theorem claim_C10_frame {T : Type} (q : CountingClaimHead T)
    (hv : q.count_and_claim.val < U64_MOD) :
    (WriteOrderingQueue.consumeRaw q).1.count_and_claim.get_val
        = q.count_and_claim.get_val ∧
    (∀ q2 r, WriteOrderingQueue.consume_or_release_claim q = some (q2, r) →
        q2.count_and_claim.get_val = q.count_and_claim.get_val) ∧
    (∀ b, (q.count_and_claim.set_flag b).get_val = q.count_and_claim.get_val) ∧
    WriteOrderingQueue.get_offset q = (q, q.count_and_claim.get_val) := by
  rcases q with ⟨next, cc⟩
  have hv2 : cc.val < U64_MOD := hv
  have hraw : (WriteOrderingQueue.consumeRaw
      (⟨next, cc⟩ : CountingClaimHead T)).1.count_and_claim.get_val = cc.get_val := by
    cases next with
    | nil =>
        rw [WriteOrderingQueue.consumeRaw_nil]
        exact FlagU64.get_val_set_flag cc false hv2
    | cons x l =>
        rw [WriteOrderingQueue.consumeRaw_cons]
  refine ⟨hraw, ?_, fun b => FlagU64.get_val_set_flag cc b hv2,
    WriteOrderingQueue.get_offset_eq _⟩
  intro q2 r heq
  unfold WriteOrderingQueue.consume_or_release_claim at heq
  by_cases hc : (WriteOrderingQueue.consumeRaw
      (⟨next, cc⟩ : CountingClaimHead T)).2.2.1 = true
  · rw [if_pos hc] at heq
    have hq2 : q2 = (WriteOrderingQueue.consumeRaw
        (⟨next, cc⟩ : CountingClaimHead T)).1 := by
      have := (Option.some.injEq _ _).mp heq
      exact (congrArg Prod.fst this).symm
    rw [hq2]
    exact hraw
  · rw [if_neg hc] at heq
    exact absurd heq (by simp)

theorem claim_C10_frame_witness :
    (WriteOrderingQueue.consumeRaw (⟨[], ⟨3⟩⟩ : CountingClaimHead Nat)).1.count_and_claim.get_val
        = FlagU64.get_val ⟨3⟩ :=
  (claim_C10_frame (⟨[], ⟨3⟩⟩ : CountingClaimHead Nat) (by decide)).1
